import Mathlib

/-!
Verification of the sensitive-data filtering and secure-logging subsystem of
an MCP Azure DevOps server (`mcp_ado_server/security.py`), via a shallow
embedding of `SecurityFilter` and `SecureLogger` into Lean.
-/

namespace McpAdo

/-- JSON-like runtime values, as passed through the Python filtering code:
strings, integers, booleans, `None`, dicts (insertion-ordered association
lists with string keys), lists, and a constructor for foreign/unknown
object types that the filter does not inspect. -/
inductive Value where
  | vstr (s : String)
  | vint (n : Int)
  | vbool (b : Bool)
  | vnull
  | vdict (entries : List (String × Value))
  | vlist (items : List Value)
  | vforeign (tag : String)
deriving Repr

/-- Lower-case a string character by character (model of `str.lower()`
restricted to ASCII, which is all the pattern tables use). -/
def pyLower (s : String) : List Char :=
  s.toList.map Char.toLower

/-- Upper-case a string character by character (model of `str.upper()`
restricted to ASCII, which is all the severity comparison uses). -/
def pyUpper (s : String) : List Char :=
  s.toList.map Char.toUpper

/-- Normalisation performed by `is_sensitive_key`:
`key.lower().replace("_", "").replace("-", "")`. -/
def normalizeKey (key : String) : List Char :=
  (pyLower key).filter (fun c => c != '_' && c != '-')

/-- `needle` occurs as a contiguous sublist of `hay` (Python's `in` on
strings). -/
def listContains (hay needle : List Char) : Bool :=
  match hay with
  | [] => needle.isEmpty
  | _ :: t => needle.isPrefixOf hay || listContains t needle

/-- `SecurityFilter.SENSITIVE_PATTERNS`: the class-level list checked by
exact membership first. -/
def SENSITIVE_PATTERNS : List String :=
  ["password", "secret", "token", "apikey", "api_key", "accesskey",
   "access_key", "secretkey", "secret_key", "credential", "auth", "bearer",
   "authorization", "pat", "client_secret", "client_id", "tenant_id"]

/-- The local `substring_patterns` list of `is_sensitive_key`. -/
def substring_patterns : List String :=
  ["password", "secret", "token", "credential", "auth", "bearer",
   "authorization", "pat"]

/-- The local `api_key_patterns` list of `is_sensitive_key` (exact match
only). -/
def api_key_patterns : List String :=
  ["apikey", "accesskey", "secretkey", "clientsecret", "clientid", "tenantid"]

/-- `SecurityFilter.is_sensitive_key`: empty key is never sensitive;
otherwise the normalised key is tested for exact membership in
`SENSITIVE_PATTERNS`, then substring membership of each
`substring_patterns` entry, then exact membership in `api_key_patterns`. -/
def is_sensitive_key (key : String) : Bool :=
  if key.isEmpty then false
  else
    let key_lower := normalizeKey key
    if SENSITIVE_PATTERNS.any (fun p => key_lower == p.toList) then true
    else if substring_patterns.any (fun p => listContains key_lower p.toList) then true
    else if api_key_patterns.any (fun p => key_lower == p.toList) then true
    else false

/-- Character class `[A-Za-z0-9]`. -/
def isAlnum (c : Char) : Bool :=
  (c ≥ 'A' && c ≤ 'Z') || (c ≥ 'a' && c ≤ 'z') || (c ≥ '0' && c ≤ '9')

/-- Character class `[A-Za-z0-9+/]` (base64 alphabet). -/
def isBase64Char (c : Char) : Bool :=
  isAlnum c || c == '+' || c == '/'

/-- Character class `[A-Za-z0-9_]` (word characters). -/
def isWordChar (c : Char) : Bool :=
  isAlnum c || c == '_'

/-- Character class `[0-9a-fA-F]`. -/
def isHexChar (c : Char) : Bool :=
  (c ≥ '0' && c ≤ '9') || (c ≥ 'a' && c ≤ 'f') || (c ≥ 'A' && c ≤ 'F')

/-- Full match of `[A-Za-z0-9+/]{52}` (the Azure PAT shape). -/
def matchAzurePat (l : List Char) : Bool :=
  l.length == 52 && l.all isBase64Char

/-- Full match of `gh[pousr]_[A-Za-z0-9_]{36,251}` (the GitHub token
shape). -/
def matchGithubToken (l : List Char) : Bool :=
  match l with
  | 'g' :: 'h' :: c :: '_' :: rest =>
    (c == 'p' || c == 'o' || c == 'u' || c == 's' || c == 'r') &&
    36 ≤ rest.length && rest.length ≤ 251 && rest.all isWordChar
  | _ => false

/-- Full match of `[A-Za-z0-9]{20,}` (the generic API key shape). -/
def matchGenericApiKey (l : List Char) : Bool :=
  20 ≤ l.length && l.all isAlnum

/-- Full match of the GUID shape
`[0-9a-fA-F]{8}-[0-9a-fA-F]{4}-[0-9a-fA-F]{4}-[0-9a-fA-F]{4}-[0-9a-fA-F]{12}`.
Since `-` is not a hex character, a string fully matches this regex exactly
when splitting it on `-` yields five all-hex groups of lengths
8, 4, 4, 4, 12. -/
def matchGuid (l : List Char) : Bool :=
  match l.splitOn '-' with
  | [a, b, c, d, e] =>
    a.length == 8 && b.length == 4 && c.length == 4 && d.length == 4 &&
    e.length == 12 && (a ++ b ++ c ++ d ++ e).all isHexChar
  | _ => false

/-- `SecurityFilter.SECRET_REGEXES`, as full-match predicates, in source
order. -/
def SECRET_REGEXES : List (List Char → Bool) :=
  [matchAzurePat, matchGithubToken, matchGenericApiKey, matchGuid]

/-- `SecurityFilter.is_sensitive_value`: false for non-strings and for
strings shorter than 10 characters; otherwise true exactly when some
pattern in `SECRET_REGEXES` fully matches the string (first match wins). -/
def is_sensitive_value (value : Value) : Bool :=
  match value with
  | Value.vstr s =>
    if s.length < 10 then false
    else SECRET_REGEXES.any (fun m => m s.toList)
  | _ => false

mutual

/-- `SecurityFilter.filter_sensitive_dict`: non-dict input is returned
verbatim; a dict is rebuilt entry by entry. -/
def filter_sensitive_dict (data : Value) (replacement : String) (deep_scan : Bool) : Value :=
  match data with
  | Value.vdict entries => Value.vdict (filterEntries entries replacement deep_scan)
  | other => other

/-- The per-entry loop body of `filter_sensitive_dict`: each key is kept and
its value transformed by `filterEntry`. -/
def filterEntries (entries : List (String × Value)) (replacement : String) (deep_scan : Bool) :
    List (String × Value) :=
  match entries with
  | [] => []
  | (key, value) :: rest =>
    (key, filterEntry key value replacement deep_scan) ::
      filterEntries rest replacement deep_scan

/-- The branch cascade inside the loop of `filter_sensitive_dict`:
sensitive key → replacement; nested dict under deep scan → recurse; list
under deep scan → filter dict-typed items; sensitive-looking string under
deep scan → replacement; otherwise pass through. -/
def filterEntry (key : String) (value : Value) (replacement : String) (deep_scan : Bool) : Value :=
  if is_sensitive_key key then Value.vstr replacement
  else
    match value with
    | Value.vdict nested =>
      if deep_scan then Value.vdict (filterEntries nested replacement deep_scan)
      else Value.vdict nested
    | Value.vlist items =>
      if deep_scan then Value.vlist (filterItems items replacement deep_scan)
      else Value.vlist items
    | Value.vstr s =>
      if deep_scan && is_sensitive_value (Value.vstr s) then Value.vstr replacement
      else Value.vstr s
    | other => other

/-- The list comprehension inside `filter_sensitive_dict`: dict-typed items
are filtered recursively, all other items pass through unchanged. -/
def filterItems (items : List Value) (replacement : String) (deep_scan : Bool) : List Value :=
  match items with
  | [] => []
  | item :: rest =>
    (match item with
     | Value.vdict nested => Value.vdict (filterEntries nested replacement deep_scan)
     | other => other) :: filterItems rest replacement deep_scan

end

/-- Split a character list at the first occurrence of `sep`
(Python's `s.split(sep, 1)`); `none` when `sep` does not occur
(Python's `sep in s` is false). -/
def splitFirst (sep : Char) : List Char → Option (List Char × List Char)
  | [] => none
  | c :: rest =>
    if c = sep then some ([], rest)
    else
      match splitFirst sep rest with
      | some (a, b) => some (c :: a, b)
      | none => none

/-- The per-parameter body of the loop in `filter_url_params`: a parameter
with `=` is split at the first `=`; if the key is sensitive it is
reassembled as `key=replacement`, otherwise the parameter is kept verbatim;
a parameter with no `=` is kept verbatim. -/
def processParam (param : List Char) (replacement : List Char) : List Char :=
  match splitFirst '=' param with
  | some (key, _value) =>
    if is_sensitive_key (String.mk key) then key ++ '=' :: replacement
    else param
  | none => param

/-- `SecurityFilter.filter_url_params`: a URL without `?` is returned
unchanged; otherwise it is split at the first `?`, the query string is split
on `&`, each parameter is processed by `processParam`, and the URL is
reassembled as `base?p1&p2&...`. -/
def filter_url_params (url : String) (replacement : String) : String :=
  match splitFirst '?' url.toList with
  | none => url
  | some (base_url, query_string) =>
    let params := (query_string.splitOn '&').map (fun p => processParam p replacement.toList)
    String.mk (base_url ++ '?' :: List.intercalate ['&'] params)

mutual

/-- Python `repr` for the embedded value type (strings single-quoted,
`None`/`True`/`False` capitalised, dicts and lists rendered recursively);
foreign objects render as their tag. -/
def pyRepr : Value → String
  | Value.vstr s => "'" ++ s ++ "'"
  | Value.vint n => toString n
  | Value.vbool b => if b then "True" else "False"
  | Value.vnull => "None"
  | Value.vdict entries => "\x7b" ++ String.intercalate ", " (reprEntries entries) ++ "\x7d"
  | Value.vlist items => "[" ++ String.intercalate ", " (reprItems items) ++ "]"
  | Value.vforeign tag => tag

/-- Renders each dict entry as `'key': repr(value)`. -/
def reprEntries : List (String × Value) → List String
  | [] => []
  | (k, v) :: rest => ("'" ++ k ++ "': " ++ pyRepr v) :: reprEntries rest

/-- Renders each list item through `pyRepr`. -/
def reprItems : List Value → List String
  | [] => []
  | v :: rest => pyRepr v :: reprItems rest

end

/-- Python `str` as used inside f-strings: a top-level string renders as
itself, everything else through `pyRepr`. -/
def pyStr (v : Value) : String :=
  match v with
  | Value.vstr s => s
  | other => pyRepr other

/-- A mapping argument is truthy in Python exactly when it is present and
non-empty; `if params:` therefore conflates an absent argument with an
empty dict. -/
def truthyDict (o : Option (List (String × Value))) : Option (List (String × Value)) :=
  match o with
  | some l => if l.isEmpty then none else some l
  | none => none

/-- The sanitized snapshot built by `SecurityFilter.sanitize_for_logging`:
`method` and the url (query-filtered) are always present; `params`,
`headers` and `json_data` are present only when the corresponding argument
was truthy. -/
structure Sanitized where
  method : String
  url : String
  params : Option (List (String × Value))
  headers : Option (List (String × Value))
  json_data : Option (List (String × Value))
deriving Repr

/-- `SecurityFilter.sanitize_for_logging`: filters the url query, and each
truthy mapping argument through `filter_sensitive_dict` (headers with the
`"[REDACTED]"` replacement, the rest with the default `"[FILTERED]"`). -/
def sanitize_for_logging (method url : String)
    (params headers json_data : Option (List (String × Value))) : Sanitized :=
  { method := method
    url := filter_url_params url "[FILTERED]"
    params := (truthyDict params).map (fun p => filterEntries p "[FILTERED]" true)
    headers := (truthyDict headers).map (fun h => filterEntries h "[REDACTED]" true)
    json_data := (truthyDict json_data).map (fun j => filterEntries j "[FILTERED]" true) }

/-- Severity levels of the underlying logging sink. -/
inductive LogLevel where
  | debug
  | info
  | warning
  | error
deriving Repr, DecidableEq

/-- One emitted log record: the severity it was routed to and the rendered
single-line message. -/
structure LogRecord where
  level : LogLevel
  message : String
deriving Repr, DecidableEq

/-- The correlation prefix convention: `[cid] ` is prepended only when a
truthy (non-empty) correlation id was supplied. -/
def applyCorrelation (correlation_id : Option String) (msg : String) : String :=
  match correlation_id with
  | some c => if c.isEmpty then msg else "[" ++ c ++ "] " ++ msg
  | none => msg

/-- Renders a sanitized mapping section as `k=v, k=v` (the f-string
`f"{k}={v}"` joined by `", "`). -/
def renderEntries (entries : List (String × Value)) : String :=
  String.intercalate ", " (entries.map (fun kv => kv.1 ++ "=" ++ pyStr kv.2))

/-- `SecureLogger.debug_request`: sanitizes the request data and renders
`HTTP Request: method=..., url=...` plus a `params=(...)`, `headers=(...)`
and `json_data=(...)` section for each key present in the snapshot, at
debug severity with the correlation prefix convention. -/
def debug_request (method url : String)
    (params headers json_data : Option (List (String × Value)))
    (correlation_id : Option String) : LogRecord :=
  let sanitized := sanitize_for_logging method url params headers json_data
  let parts := ["method=" ++ sanitized.method, "url=" ++ sanitized.url]
  let parts := parts ++ (match sanitized.params with
    | some p => ["params=(" ++ renderEntries p ++ ")"]
    | none => [])
  let parts := parts ++ (match sanitized.headers with
    | some h => ["headers=(" ++ renderEntries h ++ ")"]
    | none => [])
  let parts := parts ++ (match sanitized.json_data with
    | some j => ["json_data=(" ++ renderEntries j ++ ")"]
    | none => [])
  { level := LogLevel.debug
    message := applyCorrelation correlation_id
      ("HTTP Request: " ++ String.intercalate ", " parts) }

/-- `SecureLogger.debug_response`: renders
`HTTP Response: status=<code>, size=<n>bytes` at debug severity. -/
def debug_response (status_code response_size : Int)
    (correlation_id : Option String) : LogRecord :=
  { level := LogLevel.debug
    message := applyCorrelation correlation_id
      ("HTTP Response: status=" ++ toString status_code ++
       ", size=" ++ toString response_size ++ "bytes") }

/-- `SecureLogger.error_with_context`: redacts the keyword context, renders
`Error: <message> - <ErrorType>: <error text>`, appends
`" | Context: <dict>"` only when the filtered context is non-empty, and
emits at error severity. The Python exception argument is modelled by its
type name and text. -/
def error_with_context (message : String) (errType errText : String)
    (correlation_id : Option String) (context : List (String × Value)) : LogRecord :=
  let filtered_context := filterEntries context "[FILTERED]" true
  let base := "Error: " ++ message ++ " - " ++ errType ++ ": " ++ errText
  let msg := if filtered_context.isEmpty then base
             else base ++ " | Context: " ++ pyStr (Value.vdict filtered_context)
  { level := LogLevel.error, message := applyCorrelation correlation_id msg }

/-- `SecureLogger.info_with_context`: like `error_with_context` but the
plain message with no error part, at info severity. -/
def info_with_context (message : String)
    (correlation_id : Option String) (context : List (String × Value)) : LogRecord :=
  let filtered_context := filterEntries context "[FILTERED]" true
  let msg := if filtered_context.isEmpty then message
             else message ++ " | Context: " ++ pyStr (Value.vdict filtered_context)
  { level := LogLevel.info, message := applyCorrelation correlation_id msg }

/-- `SecureLogger.security_event`: renders
`SECURITY_EVENT: <event_type> | <description>` (plus non-empty filtered
context), and routes to error/warning/info severity by a case-insensitive
match of the `severity` argument. -/
def security_event (event_type description : String) (severity : String)
    (correlation_id : Option String) (context : List (String × Value)) : LogRecord :=
  let filtered_context := filterEntries context "[FILTERED]" true
  let base := "SECURITY_EVENT: " ++ event_type ++ " | " ++ description
  let msg := if filtered_context.isEmpty then base
             else base ++ " | Context: " ++ pyStr (Value.vdict filtered_context)
  { level :=
      if pyUpper severity == "ERROR".toList then LogLevel.error
      else if pyUpper severity == "WARNING".toList then LogLevel.warning
      else LogLevel.info
    message := applyCorrelation correlation_id msg }

/-- The substring list of the spec's resolved two-tier rule
(`SUBSTRING_LIST` in §9 of the spec). -/
def SUBSTRING_LIST : List String :=
  ["password", "secret", "token", "credential", "auth", "bearer",
   "authorization", "pat"]

/-- The exact list of the spec's resolved two-tier rule
(`EXACT_LIST` in §9 of the spec). -/
def EXACT_LIST : List String :=
  ["apikey", "accesskey", "secretkey", "clientsecret", "clientid", "tenantid"]

/-- The spec's wording of `classify_key`: after normalisation the key
either exactly equals an `EXACT_LIST` entry or contains a
`SUBSTRING_LIST` entry as a substring. -/
def specSensitiveKey (key : String) : Bool :=
  EXACT_LIST.any (fun p => normalizeKey key == p.toList) ||
  SUBSTRING_LIST.any (fun p => listContains (normalizeKey key) p.toList)

/-- A value position that redaction leaves untouched when its key is not
sensitive: any scalar, or a string not classified sensitive under the
current deep-scan setting (nested dicts/lists are instead traversed). -/
def untouchedValue (v : Value) (deep_scan : Bool) : Bool :=
  match v with
  | Value.vdict _ => false
  | Value.vlist _ => false
  | Value.vstr s => !(deep_scan && is_sensitive_value (Value.vstr s))
  | _ => true

/-! ## Helper lemmas -/

theorem underscore_not_mem_normalizeKey (k : String) : '_' ∉ normalizeKey k := by
  intro h
  have hp := List.of_mem_filter h
  simp at hp

theorem SUBSTRING_LIST_eq : SUBSTRING_LIST = substring_patterns := rfl

theorem EXACT_LIST_eq : EXACT_LIST = api_key_patterns := rfl

theorem is_sensitive_key_eq_spec (k : String) : is_sensitive_key k = specSensitiveKey k := by
  by_cases hemp : k.isEmpty
  · have hk : k = "" := (String.isEmpty_iff k).mp hemp
    subst hk
    decide
  · unfold is_sensitive_key specSensitiveKey
    rw [if_neg hemp]
    by_cases hsp : SENSITIVE_PATTERNS.any (fun p => normalizeKey k == p.toList) = true
    · rw [if_pos hsp]
      rcases List.any_eq_true.mp hsp with ⟨p, hp, hbeq⟩
      have h' : normalizeKey k = p.toList := eq_of_beq hbeq
      simp only [SENSITIVE_PATTERNS, List.mem_cons, List.not_mem_nil, or_false] at hp
      rcases hp with rfl|rfl|rfl|rfl|rfl|rfl|rfl|rfl|rfl|rfl|rfl|rfl|rfl|rfl|rfl|rfl|rfl <;>
        first
        | (rw [h']; decide)
        | (exfalso
           apply underscore_not_mem_normalizeKey k
           rw [h']
           decide)
    · rw [if_neg hsp]
      by_cases hsub : substring_patterns.any (fun p => listContains (normalizeKey k) p.toList) = true
      · rw [if_pos hsub]
        have h2 : SUBSTRING_LIST.any (fun p => listContains (normalizeKey k) p.toList) = true := by
          rw [SUBSTRING_LIST_eq]
          exact hsub
        rw [h2, Bool.or_true]
      · rw [if_neg hsub]
        by_cases hex : api_key_patterns.any (fun p => normalizeKey k == p.toList) = true
        · rw [if_pos hex]
          have h1 : EXACT_LIST.any (fun p => normalizeKey k == p.toList) = true := by
            rw [EXACT_LIST_eq]
            exact hex
          rw [h1, Bool.true_or]
        · rw [if_neg hex]
          have h1 : EXACT_LIST.any (fun p => normalizeKey k == p.toList) = false := by
            rw [EXACT_LIST_eq]
            simpa using hex
          have h2 : SUBSTRING_LIST.any (fun p => listContains (normalizeKey k) p.toList) = false := by
            rw [SUBSTRING_LIST_eq]
            simpa using hsub
          rw [h1, h2]
          rfl

/-! ## Claims -/

/-- C1: `is_sensitive_key` returns true iff the lowercased key with `_`/`-`
removed either exactly equals an `EXACT_LIST` entry or contains a
`SUBSTRING_LIST` entry as a substring; in particular it is false for the
empty string, `"username"`, `"project_name"`, `"url"`, `"description"`. -/
theorem classify_key_two_tier_rule :
    (∀ k : String, is_sensitive_key k = true ↔
       (EXACT_LIST.any (fun p => normalizeKey k == p.toList) = true ∨
        SUBSTRING_LIST.any (fun p => listContains (normalizeKey k) p.toList) = true)) ∧
    is_sensitive_key "" = false ∧
    is_sensitive_key "username" = false ∧
    is_sensitive_key "project_name" = false ∧
    is_sensitive_key "url" = false ∧
    is_sensitive_key "description" = false := by
  refine ⟨fun k => ?_, by decide, by decide, by decide, by decide, by decide⟩
  rw [is_sensitive_key_eq_spec k]
  unfold specSensitiveKey
  exact Bool.or_eq_true_iff

/-- C4 counterexample: the claim says `is_sensitive_key` is false for
`"pattern"` and `"author"`, but the code substring-matches `"pat"` and
`"auth"`, so both return true. -/
theorem classify_key_pattern_author_counterexample :
    is_sensitive_key "pattern" = true ∧ is_sensitive_key "author" = true := by
  decide

/-- C4 amended: `"pat"` and `"auth"` are substring-matched (they are in the
substring list, not only exact), so `is_sensitive_key` returns true for any
key whose normalised form contains them — in particular for `"pattern"`
and `"author"`. -/
theorem classify_key_pattern_author_amended :
    is_sensitive_key "pattern" = true ∧ is_sensitive_key "author" = true ∧
    (∀ k : String, listContains (normalizeKey k) ("pat".toList) = true →
      is_sensitive_key k = true) ∧
    (∀ k : String, listContains (normalizeKey k) ("auth".toList) = true →
      is_sensitive_key k = true) := by
  refine ⟨by decide, by decide, fun k h => ?_, fun k h => ?_⟩ <;>
  · rw [is_sensitive_key_eq_spec k]
    unfold specSensitiveKey
    refine Bool.or_eq_true_iff.mpr (Or.inr (List.any_eq_true.mpr ?_))
    first
    | exact ⟨"pat", by decide, h⟩
    | exact ⟨"auth", by decide, h⟩

/-- C4 witness: the amended substring rule applied at concrete keys. -/
theorem classify_key_pattern_author_amended_witness :
    is_sensitive_key "my_pattern" = true ∧ is_sensitive_key "coauthor" = true :=
  ⟨classify_key_pattern_author_amended.2.2.1 "my_pattern" (by decide),
   classify_key_pattern_author_amended.2.2.2 "coauthor" (by decide)⟩

theorem filterEntry_pos (k : String) (v : Value) (r : String) (d : Bool)
    (hk : is_sensitive_key k = true) : filterEntry k v r d = Value.vstr r := by
  unfold filterEntry
  rw [if_pos hk]

theorem filterEntry_dict_deep (k : String) (nested : List (String × Value)) (r : String)
    (hk : is_sensitive_key k = false) :
    filterEntry k (Value.vdict nested) r true = Value.vdict (filterEntries nested r true) := by
  unfold filterEntry
  rw [if_neg (by simp [hk])]
  rfl

theorem filterEntry_dict_shallow (k : String) (nested : List (String × Value)) (r : String)
    (hk : is_sensitive_key k = false) :
    filterEntry k (Value.vdict nested) r false = Value.vdict nested := by
  unfold filterEntry
  rw [if_neg (by simp [hk])]
  rfl

theorem filterEntry_list_deep (k : String) (items : List Value) (r : String)
    (hk : is_sensitive_key k = false) :
    filterEntry k (Value.vlist items) r true = Value.vlist (filterItems items r true) := by
  unfold filterEntry
  rw [if_neg (by simp [hk])]
  rfl

theorem filterEntry_list_shallow (k : String) (items : List Value) (r : String)
    (hk : is_sensitive_key k = false) :
    filterEntry k (Value.vlist items) r false = Value.vlist items := by
  unfold filterEntry
  rw [if_neg (by simp [hk])]
  rfl

theorem filterEntry_str (k s r : String) (d : Bool) (hk : is_sensitive_key k = false) :
    filterEntry k (Value.vstr s) r d =
      if (d && is_sensitive_value (Value.vstr s)) = true then Value.vstr r
      else Value.vstr s := by
  unfold filterEntry
  rw [if_neg (by simp [hk])]

theorem filterEntry_scalar (k : String) (v : Value) (r : String) (d : Bool)
    (hk : is_sensitive_key k = false)
    (hv : (∀ e, v ≠ Value.vdict e) ∧ (∀ l, v ≠ Value.vlist l) ∧ (∀ s, v ≠ Value.vstr s)) :
    filterEntry k v r d = v := by
  unfold filterEntry
  rw [if_neg (by simp [hk])]
  cases v with
  | vdict e => exact absurd rfl (hv.1 e)
  | vlist l => exact absurd rfl (hv.2.1 l)
  | vstr s => exact absurd rfl (hv.2.2 s)
  | vint n => rfl
  | vbool b => rfl
  | vnull => rfl
  | vforeign t => rfl

mutual

theorem filter_sensitive_dict_idem (v : Value) (r : String) (d : Bool) :
    filter_sensitive_dict (filter_sensitive_dict v r d) r d = filter_sensitive_dict v r d :=
  match v with
  | Value.vdict entries => congrArg Value.vdict (filterEntries_idem entries r d)
  | Value.vstr _ => rfl
  | Value.vint _ => rfl
  | Value.vbool _ => rfl
  | Value.vnull => rfl
  | Value.vlist _ => rfl
  | Value.vforeign _ => rfl

theorem filterEntries_idem (l : List (String × Value)) (r : String) (d : Bool) :
    filterEntries (filterEntries l r d) r d = filterEntries l r d :=
  match l with
  | [] => rfl
  | (k, v) :: rest => by
    show (k, filterEntry k (filterEntry k v r d) r d) :: filterEntries (filterEntries rest r d) r d =
      (k, filterEntry k v r d) :: filterEntries rest r d
    rw [filterEntry_idem k v r d, filterEntries_idem rest r d]

theorem filterEntry_idem (k : String) (v : Value) (r : String) (d : Bool) :
    filterEntry k (filterEntry k v r d) r d = filterEntry k v r d := by
  by_cases hk : is_sensitive_key k = true
  · rw [filterEntry_pos k v r d hk, filterEntry_pos k (Value.vstr r) r d hk]
  · have hk' : is_sensitive_key k = false := by simpa using hk
    cases v with
    | vdict nested =>
      cases d with
      | true =>
        rw [filterEntry_dict_deep k nested r hk',
            filterEntry_dict_deep k (filterEntries nested r true) r hk']
        exact congrArg Value.vdict (filterEntries_idem nested r true)
      | false =>
        rw [filterEntry_dict_shallow k nested r hk',
            filterEntry_dict_shallow k nested r hk']
    | vlist items =>
      cases d with
      | true =>
        rw [filterEntry_list_deep k items r hk',
            filterEntry_list_deep k (filterItems items r true) r hk']
        exact congrArg Value.vlist (filterItems_idem items r true)
      | false =>
        rw [filterEntry_list_shallow k items r hk',
            filterEntry_list_shallow k items r hk']
    | vstr s =>
      by_cases hs : (d && is_sensitive_value (Value.vstr s)) = true
      · rw [filterEntry_str k s r d hk', if_pos hs, filterEntry_str k r r d hk']
        exact ite_self _
      · rw [filterEntry_str k s r d hk', if_neg hs, filterEntry_str k s r d hk', if_neg hs]
    | vint n =>
      rw [filterEntry_scalar k (Value.vint n) r d hk'
            ⟨nofun, nofun, nofun⟩,
          filterEntry_scalar k (Value.vint n) r d hk'
            ⟨nofun, nofun, nofun⟩]
    | vbool b =>
      rw [filterEntry_scalar k (Value.vbool b) r d hk'
            ⟨nofun, nofun, nofun⟩,
          filterEntry_scalar k (Value.vbool b) r d hk'
            ⟨nofun, nofun, nofun⟩]
    | vnull =>
      rw [filterEntry_scalar k Value.vnull r d hk'
            ⟨nofun, nofun, nofun⟩,
          filterEntry_scalar k Value.vnull r d hk'
            ⟨nofun, nofun, nofun⟩]
    | vforeign t =>
      rw [filterEntry_scalar k (Value.vforeign t) r d hk'
            ⟨nofun, nofun, nofun⟩,
          filterEntry_scalar k (Value.vforeign t) r d hk'
            ⟨nofun, nofun, nofun⟩]

theorem filterItems_idem (items : List Value) (r : String) (d : Bool) :
    filterItems (filterItems items r d) r d = filterItems items r d :=
  match items with
  | [] => rfl
  | Value.vdict nested :: rest => by
    show Value.vdict (filterEntries (filterEntries nested r d) r d) ::
        filterItems (filterItems rest r d) r d =
      Value.vdict (filterEntries nested r d) :: filterItems rest r d
    rw [filterEntries_idem nested r d, filterItems_idem rest r d]
  | Value.vstr s :: rest => by
    show Value.vstr s :: filterItems (filterItems rest r d) r d =
      Value.vstr s :: filterItems rest r d
    rw [filterItems_idem rest r d]
  | Value.vint n :: rest => by
    show Value.vint n :: filterItems (filterItems rest r d) r d =
      Value.vint n :: filterItems rest r d
    rw [filterItems_idem rest r d]
  | Value.vbool b :: rest => by
    show Value.vbool b :: filterItems (filterItems rest r d) r d =
      Value.vbool b :: filterItems rest r d
    rw [filterItems_idem rest r d]
  | Value.vnull :: rest => by
    show Value.vnull :: filterItems (filterItems rest r d) r d =
      Value.vnull :: filterItems rest r d
    rw [filterItems_idem rest r d]
  | Value.vlist l :: rest => by
    show Value.vlist l :: filterItems (filterItems rest r d) r d =
      Value.vlist l :: filterItems rest r d
    rw [filterItems_idem rest r d]
  | Value.vforeign t :: rest => by
    show Value.vforeign t :: filterItems (filterItems rest r d) r d =
      Value.vforeign t :: filterItems rest r d
    rw [filterItems_idem rest r d]

end

/-- C2: redaction is idempotent — for every structure, placeholder and
deep-scan setting, `filter_sensitive_dict` applied twice equals it applied
once; the default placeholders are not themselves classified as secret
values. -/
theorem redact_idempotent :
    (∀ (x : Value) (placeholder : String) (deep_scan : Bool),
       filter_sensitive_dict (filter_sensitive_dict x placeholder deep_scan) placeholder deep_scan =
         filter_sensitive_dict x placeholder deep_scan) ∧
    is_sensitive_value (Value.vstr "[FILTERED]") = false ∧
    is_sensitive_value (Value.vstr "[REDACTED]") = false :=
  ⟨filter_sensitive_dict_idem, by decide, by decide⟩

theorem filterEntries_sensitive_mem (entries : List (String × Value)) (r : String) (d : Bool)
    (k : String) (v : Value) (hmem : (k, v) ∈ entries) (hk : is_sensitive_key k = true) :
    (k, Value.vstr r) ∈ filterEntries entries r d := by
  induction entries with
  | nil => cases hmem
  | cons head rest ih =>
    obtain ⟨k₀, v₀⟩ := head
    show (k, Value.vstr r) ∈ (k₀, filterEntry k₀ v₀ r d) :: filterEntries rest r d
    rcases List.mem_cons.mp hmem with heq | htail
    · injection heq with h1 h2
      subst h1
      subst h2
      rw [filterEntry_pos k v r d hk]
      exact List.mem_cons_self _ _
    · exact List.mem_cons_of_mem _ (ih htail)

/-- C3: a key classified sensitive is mapped to exactly the placeholder,
regardless of the original value; in particular `{"password": None}` becomes
`{"password": "[FILTERED]"}`, and a caller-supplied placeholder such as
`"***HIDDEN***"` is substituted verbatim. -/
theorem sensitive_key_forces_placeholder :
    (∀ (entries : List (String × Value)) (placeholder : String) (deep_scan : Bool)
       (k : String) (v : Value), (k, v) ∈ entries → is_sensitive_key k = true →
       (k, Value.vstr placeholder) ∈ filterEntries entries placeholder deep_scan) ∧
    filter_sensitive_dict (Value.vdict [("password", Value.vnull)]) "[FILTERED]" true =
      Value.vdict [("password", Value.vstr "[FILTERED]")] ∧
    filter_sensitive_dict (Value.vdict [("password", Value.vstr "x")]) "***HIDDEN***" true =
      Value.vdict [("password", Value.vstr "***HIDDEN***")] :=
  ⟨filterEntries_sensitive_mem, rfl, rfl⟩

/-- C3 witness: the sensitive-key rule applied at a concrete entry. -/
theorem sensitive_key_forces_placeholder_witness :
    ("password", Value.vstr "[FILTERED]") ∈
      filterEntries [("username", Value.vstr "john"), ("password", Value.vnull)]
        "[FILTERED]" true :=
  sensitive_key_forces_placeholder.1 _ "[FILTERED]" true "password" Value.vnull
    (List.mem_cons_of_mem _ (List.mem_cons_self _ _)) (by decide)

theorem filterEntries_shallow (entries : List (String × Value)) (r : String) :
    filterEntries entries r false =
      entries.map (fun kv => (kv.1, if is_sensitive_key kv.1 then Value.vstr r else kv.2)) := by
  induction entries with
  | nil => rfl
  | cons head rest ih =>
    obtain ⟨k, v⟩ := head
    show (k, filterEntry k v r false) :: filterEntries rest r false = _
    rw [List.map_cons, ih]
    congr 1
    simp only
    by_cases hk : is_sensitive_key k = true
    · rw [filterEntry_pos k v r false hk, if_pos hk]
    · have hk' : is_sensitive_key k = false := by simpa using hk
      rw [if_neg hk]
      cases v with
      | vdict nested => rw [filterEntry_dict_shallow k nested r hk']
      | vlist items => rw [filterEntry_list_shallow k items r hk']
      | vstr s =>
        rw [filterEntry_str k s r false hk']
        simp
      | vint n => rw [filterEntry_scalar k (Value.vint n) r false hk' ⟨nofun, nofun, nofun⟩]
      | vbool b => rw [filterEntry_scalar k (Value.vbool b) r false hk' ⟨nofun, nofun, nofun⟩]
      | vnull => rw [filterEntry_scalar k Value.vnull r false hk' ⟨nofun, nofun, nofun⟩]
      | vforeign t => rw [filterEntry_scalar k (Value.vforeign t) r false hk' ⟨nofun, nofun, nofun⟩]

/-- C7: with `deep_scan = false` only top-level key-based redaction applies —
the output is the pointwise map replacing values under sensitive keys and
leaving every other value (nested dicts included) entirely unchanged; the
nested `api_key` example is untouched shallowly and redacted deeply. -/
theorem shallow_scan_top_level_only :
    (∀ (entries : List (String × Value)) (placeholder : String),
       filterEntries entries placeholder false =
         entries.map (fun kv =>
           (kv.1, if is_sensitive_key kv.1 then Value.vstr placeholder else kv.2))) ∧
    filter_sensitive_dict (Value.vdict [("nested", Value.vdict [("api_key", Value.vstr "v")])])
        "[FILTERED]" false =
      Value.vdict [("nested", Value.vdict [("api_key", Value.vstr "v")])] ∧
    filter_sensitive_dict (Value.vdict [("nested", Value.vdict [("api_key", Value.vstr "v")])])
        "[FILTERED]" true =
      Value.vdict [("nested", Value.vdict [("api_key", Value.vstr "[FILTERED]")])] :=
  ⟨filterEntries_shallow, rfl, rfl⟩

theorem filterEntries_keys (entries : List (String × Value)) (r : String) (d : Bool) :
    (filterEntries entries r d).map Prod.fst = entries.map Prod.fst := by
  induction entries with
  | nil => rfl
  | cons head rest ih =>
    obtain ⟨k, v⟩ := head
    show k :: (filterEntries rest r d).map Prod.fst = k :: rest.map Prod.fst
    rw [ih]

theorem filterItems_eq_map (items : List Value) (r : String) (d : Bool) :
    filterItems items r d = items.map (fun it => filter_sensitive_dict it r d) := by
  induction items with
  | nil => rfl
  | cons item rest ih =>
    rw [List.map_cons, ← ih]
    cases item <;> rfl

theorem filter_sensitive_dict_nondict (v : Value) (r : String) (d : Bool)
    (h : ∀ e, v ≠ Value.vdict e) : filter_sensitive_dict v r d = v := by
  cases v with
  | vdict e => exact absurd rfl (h e)
  | vstr s => rfl
  | vint n => rfl
  | vbool b => rfl
  | vnull => rfl
  | vlist l => rfl
  | vforeign t => rfl

theorem filterEntry_untouched (k : String) (v : Value) (r : String) (d : Bool)
    (hk : is_sensitive_key k = false) (hv : untouchedValue v d = true) :
    filterEntry k v r d = v := by
  cases v with
  | vdict e => exact absurd hv (by simp [untouchedValue])
  | vlist l => exact absurd hv (by simp [untouchedValue])
  | vstr s =>
    rw [filterEntry_str k s r d hk]
    have hfalse : (d && is_sensitive_value (Value.vstr s)) = false := by
      have h := hv
      unfold untouchedValue at h
      cases hb : (d && is_sensitive_value (Value.vstr s))
      · rfl
      · simp [hb] at h
    simp [hfalse]
  | vint n => exact filterEntry_scalar k (Value.vint n) r d hk ⟨nofun, nofun, nofun⟩
  | vbool b => exact filterEntry_scalar k (Value.vbool b) r d hk ⟨nofun, nofun, nofun⟩
  | vnull => exact filterEntry_scalar k Value.vnull r d hk ⟨nofun, nofun, nofun⟩
  | vforeign t => exact filterEntry_scalar k (Value.vforeign t) r d hk ⟨nofun, nofun, nofun⟩

/-- C8: redaction preserves structure — the output dict has exactly the
input's keys in order (at every nesting level, since `filterEntries` is the
transform applied at each level), a list is mapped elementwise with
non-dict elements passed through verbatim, and any value that is neither
under a sensitive key nor a string caught by the deep-scan value signature
is returned equal to the input. -/
theorem redact_structure_preservation :
    (∀ (entries : List (String × Value)) (placeholder : String) (deep_scan : Bool),
       (filterEntries entries placeholder deep_scan).map Prod.fst = entries.map Prod.fst) ∧
    (∀ (items : List Value) (placeholder : String) (deep_scan : Bool),
       filterItems items placeholder deep_scan =
         items.map (fun it => filter_sensitive_dict it placeholder deep_scan)) ∧
    (∀ (v : Value) (placeholder : String) (deep_scan : Bool),
       (∀ e, v ≠ Value.vdict e) → filter_sensitive_dict v placeholder deep_scan = v) ∧
    (∀ (k : String) (v : Value) (placeholder : String) (deep_scan : Bool),
       is_sensitive_key k = false → untouchedValue v deep_scan = true →
       filterEntry k v placeholder deep_scan = v) :=
  ⟨filterEntries_keys, filterItems_eq_map, filter_sensitive_dict_nondict, filterEntry_untouched⟩

/-- C8 witness: structure preservation at concrete inputs. -/
theorem redact_structure_preservation_witness :
    filter_sensitive_dict (Value.vstr "plain") "[FILTERED]" true = Value.vstr "plain" ∧
    filterEntry "name" (Value.vstr "item1") "[FILTERED]" true = Value.vstr "item1" :=
  ⟨redact_structure_preservation.2.2.1 (Value.vstr "plain") "[FILTERED]" true nofun,
   redact_structure_preservation.2.2.2 "name" (Value.vstr "item1") "[FILTERED]" true
     (by decide) (by decide)⟩

/-- C5: `is_sensitive_value` is true exactly for strings of length at least
10 whose whole text matches one of the four value signatures; it is false
for non-strings, null, short strings, prose and URLs, and true for a
52-character base64 token and a GUID. -/
theorem classify_value_full_match :
    (∀ v : Value, is_sensitive_value v = true ↔
       ∃ s : String, v = Value.vstr s ∧ 10 ≤ s.length ∧
         (matchAzurePat s.toList = true ∨ matchGithubToken s.toList = true ∨
          matchGenericApiKey s.toList = true ∨ matchGuid s.toList = true)) ∧
    is_sensitive_value (Value.vstr "abcdef123456789012345678901234567890123456789012") = true ∧
    is_sensitive_value (Value.vstr "12345678-1234-1234-1234-123456789012") = true ∧
    is_sensitive_value Value.vnull = false ∧
    is_sensitive_value (Value.vint 12345678901234567890) = false ∧
    is_sensitive_value (Value.vbool true) = false ∧
    is_sensitive_value (Value.vstr "short") = false ∧
    is_sensitive_value (Value.vstr "") = false ∧
    is_sensitive_value (Value.vstr "normal text value") = false ∧
    is_sensitive_value (Value.vstr "https://example.com") = false := by
  refine ⟨fun v => ?_, by decide, by decide, by decide, by decide, by decide, by decide,
    by decide, by decide, by decide⟩
  cases v with
  | vstr s =>
    have hval : is_sensitive_value (Value.vstr s) =
        if s.length < 10 then false
        else SECRET_REGEXES.any (fun m => m s.toList) := rfl
    rw [hval]
    by_cases hlen : s.length < 10
    · rw [if_pos hlen]
      constructor
      · intro h
        exact Bool.noConfusion h
      · rintro ⟨s', heq, hge, -⟩
        injection heq with hs
        subst hs
        omega
    · rw [if_neg hlen]
      have hany : (SECRET_REGEXES.any fun m => m s.toList) = true ↔
          (matchAzurePat s.toList = true ∨ matchGithubToken s.toList = true ∨
           matchGenericApiKey s.toList = true ∨ matchGuid s.toList = true) := by
        simp [SECRET_REGEXES, List.any_cons, List.any_nil]
      rw [hany]
      constructor
      · intro h
        exact ⟨s, rfl, by omega, h⟩
      · rintro ⟨s', heq, -, h⟩
        injection heq with hs
        subst hs
        exact h
  | vint n => exact ⟨fun h => Bool.noConfusion h, fun ⟨s, heq, _, _⟩ => Value.noConfusion heq⟩
  | vbool b => exact ⟨fun h => Bool.noConfusion h, fun ⟨s, heq, _, _⟩ => Value.noConfusion heq⟩
  | vnull => exact ⟨fun h => Bool.noConfusion h, fun ⟨s, heq, _, _⟩ => Value.noConfusion heq⟩
  | vdict e => exact ⟨fun h => Bool.noConfusion h, fun ⟨s, heq, _, _⟩ => Value.noConfusion heq⟩
  | vlist l => exact ⟨fun h => Bool.noConfusion h, fun ⟨s, heq, _, _⟩ => Value.noConfusion heq⟩
  | vforeign t => exact ⟨fun h => Bool.noConfusion h, fun ⟨s, heq, _, _⟩ => Value.noConfusion heq⟩

theorem splitFirst_eq_none (sep : Char) (l : List Char) (h : sep ∉ l) :
    splitFirst sep l = none := by
  induction l with
  | nil => rfl
  | cons c rest ih =>
    have hc : ¬(c = sep) := fun hc => h (List.mem_cons.mpr (Or.inl hc.symm))
    simp [splitFirst, hc, ih (fun hm => h (List.mem_cons_of_mem c hm))]

theorem splitFirst_append (sep : Char) (k v : List Char) (h : sep ∉ k) :
    splitFirst sep (k ++ sep :: v) = some (k, v) := by
  induction k with
  | nil => simp [splitFirst]
  | cons c rest ih =>
    have hc : ¬(c = sep) := fun hc => h (List.mem_cons.mpr (Or.inl hc.symm))
    simp [splitFirst, hc, ih (fun hm => h (List.mem_cons_of_mem c hm))]

theorem processParam_no_eq (p repl : List Char) (h : '=' ∉ p) :
    processParam p repl = p := by
  unfold processParam
  rw [splitFirst_eq_none '=' p h]

theorem processParam_sensitive (k v repl : List Char) (hk : '=' ∉ k)
    (hs : is_sensitive_key (String.mk k) = true) :
    processParam (k ++ '=' :: v) repl = k ++ '=' :: repl := by
  unfold processParam
  rw [splitFirst_append '=' k v hk]
  show (if is_sensitive_key (String.mk k) = true then k ++ '=' :: repl
        else k ++ '=' :: v) = k ++ '=' :: repl
  rw [if_pos hs]

theorem processParam_not_sensitive (k v repl : List Char) (hk : '=' ∉ k)
    (hs : is_sensitive_key (String.mk k) = false) :
    processParam (k ++ '=' :: v) repl = k ++ '=' :: v := by
  unfold processParam
  rw [splitFirst_append '=' k v hk]
  show (if is_sensitive_key (String.mk k) = true then k ++ '=' :: repl
        else k ++ '=' :: v) = k ++ '=' :: v
  rw [if_neg (by simp [hs])]

/-- C6: `filter_url_params` returns a URL without `?` unchanged; otherwise
it splits at the first `?`, splits the query on `&`, processes each
parameter (sensitive key → `key=placeholder`, even for an empty value;
otherwise, or with no `=`, verbatim), and reassembles; with the worked
example from the spec. -/
theorem redact_url_query_rule :
    (∀ (url : String) (repl : String), '?' ∉ url.toList →
       filter_url_params url repl = url) ∧
    (∀ (url repl : String) (base query : List Char),
       splitFirst '?' url.toList = some (base, query) →
       filter_url_params url repl =
         String.mk (base ++ '?' ::
           List.intercalate ['&']
             ((query.splitOn '&').map (fun p => processParam p repl.toList)))) ∧
    (∀ (p : List Char) (repl : List Char), '=' ∉ p → processParam p repl = p) ∧
    (∀ (k v repl : List Char), '=' ∉ k → is_sensitive_key (String.mk k) = true →
       processParam (k ++ '=' :: v) repl = k ++ '=' :: repl) ∧
    (∀ (k v repl : List Char), '=' ∉ k → is_sensitive_key (String.mk k) = false →
       processParam (k ++ '=' :: v) repl = k ++ '=' :: v) ∧
    filter_url_params "https://x/y?api_key=secret123&project=test" "[FILTERED]" =
      "https://x/y?api_key=[FILTERED]&project=test" := by
  refine ⟨fun url repl h => ?_, fun url repl base query hsplit => ?_,
    processParam_no_eq, processParam_sensitive, processParam_not_sensitive, rfl⟩
  · unfold filter_url_params
    rw [splitFirst_eq_none '?' url.toList h]
  · unfold filter_url_params
    rw [hsplit]

/-- C6 witness: the URL rule applied at concrete inputs. -/
theorem redact_url_query_rule_witness :
    filter_url_params "https://api.example.com/data" "[FILTERED]" =
        "https://api.example.com/data" ∧
    processParam ("standalone_param".toList) ("[FILTERED]".toList) =
        "standalone_param".toList ∧
    processParam ("api_key".toList ++ '=' :: [])
        ("[FILTERED]".toList) = "api_key".toList ++ '=' :: "[FILTERED]".toList ∧
    processParam ("project".toList ++ '=' :: "test".toList)
        ("[FILTERED]".toList) = "project".toList ++ '=' :: "test".toList ∧
    filter_url_params "https://e/a?token=abc123" "[FILTERED]" =
      String.mk ("https://e/a".toList ++ '?' ::
        List.intercalate ['&']
          ((("token=abc123".toList).splitOn '&').map
            (fun p => processParam p ("[FILTERED]".toList)))) :=
  ⟨redact_url_query_rule.1 "https://api.example.com/data" "[FILTERED]" (by decide),
   redact_url_query_rule.2.2.1 ("standalone_param".toList) ("[FILTERED]".toList) (by decide),
   redact_url_query_rule.2.2.2.1 ("api_key".toList) [] ("[FILTERED]".toList)
     (by decide) (by decide),
   redact_url_query_rule.2.2.2.2.1 ("project".toList) ("test".toList) ("[FILTERED]".toList)
     (by decide) (by decide),
   redact_url_query_rule.2.1 "https://e/a?token=abc123" "[FILTERED]"
     ("https://e/a".toList) ("token=abc123".toList) (by decide)⟩

/-- C9: the redaction and logging operations are total — non-dict top-level
input is returned verbatim, foreign value types pass through unchanged
under a non-sensitive key, and every logger renders a well-defined line
with absent optional fields omitted and severity routed case-insensitively. -/
theorem redact_and_log_total :
    (∀ (v : Value) (placeholder : String) (deep_scan : Bool),
       (∀ e, v ≠ Value.vdict e) → filter_sensitive_dict v placeholder deep_scan = v) ∧
    (∀ (k tag placeholder : String) (deep_scan : Bool),
       is_sensitive_key k = false →
       filterEntry k (Value.vforeign tag) placeholder deep_scan = Value.vforeign tag) ∧
    (∀ m u, debug_request m u none none none none =
       { level := LogLevel.debug
         message := "HTTP Request: " ++ String.intercalate ", "
           ["method=" ++ m, "url=" ++ filter_url_params u "[FILTERED]"] }) ∧
    (∀ sc sz cid, debug_response sc sz cid =
       { level := LogLevel.debug
         message := applyCorrelation cid
           ("HTTP Response: status=" ++ toString sc ++ ", size=" ++ toString sz ++ "bytes") }) ∧
    (∀ msg en et cid, error_with_context msg en et cid [] =
       { level := LogLevel.error
         message := applyCorrelation cid ("Error: " ++ msg ++ " - " ++ en ++ ": " ++ et) }) ∧
    (∀ msg cid, info_with_context msg cid [] =
       { level := LogLevel.info, message := applyCorrelation cid msg }) ∧
    (∀ et de cid, security_event et de "INFO" cid [] =
       { level := LogLevel.info
         message := applyCorrelation cid ("SECURITY_EVENT: " ++ et ++ " | " ++ de) }) ∧
    (∀ et de cid ctx, (security_event et de "ERROR" cid ctx).level = LogLevel.error) ∧
    (∀ et de cid ctx, (security_event et de "warning" cid ctx).level = LogLevel.warning) :=
  ⟨filter_sensitive_dict_nondict,
   fun k tag r d hk => filterEntry_scalar k (Value.vforeign tag) r d hk ⟨nofun, nofun, nofun⟩,
   fun _ _ => rfl, fun _ _ _ => rfl, fun _ _ _ _ => rfl,
   fun _ _ => rfl, fun _ _ _ => rfl, fun _ _ _ _ => rfl,
   fun _ _ _ _ => rfl⟩

/-- C9 witness: totality at concrete inputs. -/
theorem redact_and_log_total_witness :
    filter_sensitive_dict (Value.vlist [Value.vint 3]) "[FILTERED]" true =
      Value.vlist [Value.vint 3] ∧
    filterEntry "kind" (Value.vforeign "object") "[FILTERED]" true = Value.vforeign "object" :=
  ⟨redact_and_log_total.1 (Value.vlist [Value.vint 3]) "[FILTERED]" true nofun,
   redact_and_log_total.2.1 "kind" "object" "[FILTERED]" true (by decide)⟩

/-- C10: `sanitize_for_logging` and `debug_request` treat an empty mapping
argument exactly like an absent one — the corresponding section is omitted
from the snapshot and the rendered line — so `headers=(` appears in the
line only when at least one header was supplied. -/
theorem empty_mapping_sections_omitted :
    (∀ m u p j, sanitize_for_logging m u p (some []) j = sanitize_for_logging m u p none j) ∧
    (∀ m u hs j, sanitize_for_logging m u (some []) hs j = sanitize_for_logging m u none hs j) ∧
    (∀ m u p hs, sanitize_for_logging m u p hs (some []) = sanitize_for_logging m u p hs none) ∧
    (∀ m u p j cid, debug_request m u p (some []) j cid = debug_request m u p none j cid) ∧
    (∀ m u hs j cid, debug_request m u (some []) hs j cid = debug_request m u none hs j cid) ∧
    (∀ m u p hs cid, debug_request m u p hs (some []) cid = debug_request m u p hs none cid) ∧
    debug_request "GET" "https://x" none (some []) none none =
      { level := LogLevel.debug, message := "HTTP Request: method=GET, url=https://x" } ∧
    listContains (debug_request "GET" "https://x" none
        (some [("Authorization", Value.vstr "token12345")]) none none).message.toList
      ("headers=(".toList) = true ∧
    listContains (debug_request "GET" "https://x" none (some []) none none).message.toList
      ("headers=(".toList) = false :=
  ⟨fun _ _ _ _ => rfl, fun _ _ _ _ => rfl, fun _ _ _ _ => rfl,
   fun _ _ _ _ _ => rfl, fun _ _ _ _ _ => rfl, fun _ _ _ _ _ => rfl,
   rfl, by decide, by decide⟩

end McpAdo
